import Mathlib

/-!
Verification of the Markdownviewer editing core (src/main.py) against its
natural-language specification.

The embedding models:
* the edit-notification / preview-rendering path (`on_text_modified`,
  `update_preview`),
* the Find/Replace dialog (`find_next`, `replace_all`, where `pyReplace`
  embeds Python's `str.replace`),
* the encoding-aware loader (`load_file_content`, trying UTF-8, UTF-16,
  Latin-1 in order, with Python universal-newline translation) and the
  UTF-8 writer (`save_file`),
* the session store (`save_session`, `restore_last_session`).

Text handled by the loader/writer is modelled as a list of Unicode code
points (`List Nat`); file contents are lists of bytes (`List Nat`, each
below 256).  The file system is a partial map from paths to byte lists;
I/O faults are injected explicitly where the Python code catches
exceptions.  `os.linesep` is modelled for POSIX, where it is a single
line feed, so writing performs no newline translation.
-/

namespace MarkdownViewer

/-- State of the main window that is relevant to edit notification and
preview rendering: the dirty flag `is_modified`, whether the right
(preview) pane is visible, and a counter of render passes performed
(each `setHtml` on the preview counts as one render). -/
structure WinState where
  is_modified : Bool
  preview_visible : Bool
  renders : Nat
deriving DecidableEq

/-- Embeds `MainWindow.update_preview` (src/main.py lines 453-458): if the
preview pane is not visible it returns without rendering; otherwise it
converts the buffer and performs one render. -/
def update_preview (st : WinState) : WinState :=
  if st.preview_visible then ⟨st.is_modified, st.preview_visible, st.renders + 1⟩
  else st

/-- Embeds `MainWindow.on_text_modified` (src/main.py lines 464-468): on
every text-changed signal it sets the dirty flag (if not already set) and
then calls `update_preview` directly.  There is no timer anywhere in the
source: the render happens synchronously inside the edit notification. -/
def on_text_modified (st : WinState) : WinState :=
  update_preview (if st.is_modified then st else ⟨true, st.preview_visible, st.renders⟩)

/-- Applies `n` consecutive edit notifications to the window state.  The
source attaches no timestamps and no timer to edits, so the behaviour is
the same however fast the edits arrive. -/
def applyEdits (st : WinState) : Nat → WinState
  | 0 => st
  | n + 1 => applyEdits (on_text_modified st) n

/-- Window state at startup: not modified, preview visible, no renders yet. -/
def initWinState : WinState := ⟨false, true, 0⟩

/-- Case folding used by the search: `QTextDocument.find` compares
case-insensitively unless the `FindCaseSensitively` flag is passed, and
`FindReplaceDialog.find_next` passes no flags, so both the query and
the document text are folded to lower case before comparison. -/
def foldCase (s : List Char) : List Char :=
  s.map Char.toLower

/-- Does `q` occur in `s` starting at offset `i`, under the
case-insensitive comparison of `QTextDocument.find` with default
flags?  (Offsets are in code points, matching `QTextCursor`
positions.) -/
def occursAtB (q s : List Char) (i : Nat) : Bool :=
  List.isPrefixOf (foldCase q) (foldCase (List.drop i s))

/-- Embeds `QTextDocument.find(text, position)` as used by
`FindReplaceDialog.find_next`: the first case-insensitive occurrence of
`q` in `s` at an offset greater than or equal to `pos`, scanning
forward. -/
def findFrom (q s : List Char) (pos : Nat) : Option Nat :=
  if s.length < pos then none
  else if occursAtB q s pos then some pos
  else findFrom q s (pos + 1)
termination_by s.length + 1 - pos
decreasing_by omega

/-- Embeds `FindReplaceDialog.find_next` (src/main.py lines 215-228).
Given the query, the document text and the current cursor position, it
returns the selection `(start, end)` made by the call, or `none` when the
query is empty or not present at all.  An empty query returns immediately
(the `if not text: return` guard); a forward miss retries once from
offset 0. -/
def find_next (q s : List Char) (pos : Nat) : Option (Nat × Nat) :=
  if q.isEmpty then none
  else
    match findFrom q s pos with
    | some i => some (i, i + q.length)
    | none =>
      match findFrom q s 0 with
      | some i => some (i, i + q.length)
      | none => none

/-- Inserts `r` after every element of the list (helper for the semantics
of Python's `str.replace` with an empty pattern). -/
def interleave (r : List Char) : List Char → List Char
  | [] => []
  | c :: rest => c :: (r ++ interleave r rest)

/-- Embeds Python's `str.replace(q, r)` for a non-empty pattern `q`: scan
left to right; at a position where `q` matches, emit `r` and continue
after the matched occurrence (never re-scanning the emitted `r`);
otherwise keep the character and move one position right.  In the match
branch `List.drop (q.length - 1) rest` equals dropping `q.length`
characters from `c :: rest` because `q` is non-empty there. -/
def pyReplaceAux (q r : List Char) : List Char → List Char
  | [] => []
  | c :: rest =>
    if List.isPrefixOf q (c :: rest) then
      r ++ pyReplaceAux q r (List.drop (q.length - 1) rest)
    else c :: pyReplaceAux q r rest
termination_by s => s.length
decreasing_by
  · simp [List.length_drop]; omega
  · simp

/-- Embeds Python's `str.replace(q, r)` in full.  With an empty pattern,
Python inserts the replacement at every character boundary:
`"abc".replace("", "x") = "xaxbxcx"`. -/
def pyReplace (q r s : List Char) : List Char :=
  if q.isEmpty then r ++ interleave r s
  else pyReplaceAux q r s

/-- Embeds `FindReplaceDialog.replace_all` (src/main.py lines 238-242):
the editor text is replaced wholesale by `text.replace(find, repl)`. -/
def replace_all (findText replText content : List Char) : List Char :=
  pyReplace findText replText content

/-- Formalises the specification's wording for replace-all: the segments
of `s` between consecutive non-overlapping occurrences of `q`, chosen
left to right.  Rejoining the segments with the replacement is exactly
"replace every non-overlapping occurrence left-to-right, never
re-scanning replacement text". -/
def pySplit (q : List Char) : List Char → List (List Char)
  | [] => [[]]
  | c :: rest =>
    if List.isPrefixOf q (c :: rest) then
      [] :: pySplit q (List.drop (q.length - 1) rest)
    else List.modifyHead (fun x => c :: x) (pySplit q rest)
termination_by s => s.length
decreasing_by
  · simp [List.length_drop]; omega
  · simp

/-- Joins a list of segments, inserting `r` between consecutive segments. -/
def joinWith (r : List Char) : List (List Char) → List Char
  | [] => []
  | [x] => x
  | x :: y :: rest => x ++ r ++ joinWith r (y :: rest)

/-- Embeds Python's `q in s` substring test. -/
def containsSub (q : List Char) : List Char → Bool
  | [] => List.isEmpty q
  | c :: rest => List.isPrefixOf q (c :: rest) || containsSub q rest

/-- One step of strict UTF-8 decoding, as performed by Python's `utf-8`
codec, given the lead byte `b` and the remaining bytes `rest`: returns
the decoded code point together with the number of continuation bytes
consumed, or `none` on a malformed sequence.  It rejects truncated
sequences, stray continuation bytes, overlong forms (lead bytes below
`0xC2`; lead `0xE0` forces the second byte to at least `0xA0`; lead
`0xF0` forces it to at least `0x90`), surrogates (lead `0xED` limits
the second byte to below `0xA0`) and code points above `0x10FFFF`
(lead bytes from `0xF5`, and lead `0xF4` limits the second byte to
below `0x90`). -/
def utf8DecodeOne (b : Nat) (rest : List Nat) : Option (Nat × Nat) :=
  if b < 0x80 then some (b, 0)
  else if b < 0xC2 then none
  else if b < 0xE0 then
    match rest with
    | b1 :: _ =>
      if 0x80 ≤ b1 ∧ b1 < 0xC0 then some ((b - 0xC0) * 0x40 + (b1 - 0x80), 1)
      else none
    | [] => none
  else if b < 0xF0 then
    match rest with
    | b1 :: b2 :: _ =>
      if (if b = 0xE0 then 0xA0 else 0x80) ≤ b1 ∧ b1 < (if b = 0xED then 0xA0 else 0xC0) ∧
          0x80 ≤ b2 ∧ b2 < 0xC0 then
        some ((b - 0xE0) * 0x1000 + (b1 - 0x80) * 0x40 + (b2 - 0x80), 2)
      else none
    | _ => none
  else if b < 0xF5 then
    match rest with
    | b1 :: b2 :: b3 :: _ =>
      if (if b = 0xF0 then 0x90 else 0x80) ≤ b1 ∧ b1 < (if b = 0xF4 then 0x90 else 0xC0) ∧
          0x80 ≤ b2 ∧ b2 < 0xC0 ∧ 0x80 ≤ b3 ∧ b3 < 0xC0 then
        some ((b - 0xF0) * 0x40000 + (b1 - 0x80) * 0x1000 + (b2 - 0x80) * 0x40 + (b3 - 0x80), 3)
      else none
    | _ => none
  else none

/-- Strict UTF-8 decoding of a byte list, iterating `utf8DecodeOne`.
The fuel argument only drives structural recursion: one unit is spent
per decoded character, and each character consumes at least one byte,
so fuel equal to the byte count (as supplied by `utf8Decode`) never
runs out. -/
def utf8DecodeLoop : Nat → List Nat → Option (List Nat)
  | _, [] => some []
  | 0, _ :: _ => none
  | fuel + 1, b :: rest =>
    match utf8DecodeOne b rest with
    | none => none
    | some (u, k) => (utf8DecodeLoop fuel (List.drop k rest)).map (fun t => u :: t)

/-- Strict UTF-8 decoding of a byte list to a code-point list
(Python's `utf-8` codec): `some` exactly when the whole byte list is
well-formed UTF-8. -/
def utf8Decode (bs : List Nat) : Option (List Nat) :=
  utf8DecodeLoop bs.length bs

/-- UTF-8 encoding of one code point (the writer side: the source saves
with `encoding="utf-8"`). -/
def utf8EncodeChar (u : Nat) : List Nat :=
  if u < 0x80 then [u]
  else if u < 0x800 then [0xC0 + u / 0x40, 0x80 + u % 0x40]
  else if u < 0x10000 then
    [0xE0 + u / 0x1000, 0x80 + (u / 0x40) % 0x40, 0x80 + u % 0x40]
  else
    [0xF0 + u / 0x40000, 0x80 + (u / 0x1000) % 0x40, 0x80 + (u / 0x40) % 0x40, 0x80 + u % 0x40]

/-- UTF-8 encoding of a code-point list. -/
def utf8Encode (t : List Nat) : List Nat :=
  (t.map utf8EncodeChar).flatten

/-- Groups bytes into 16-bit units, little- or big-endian; fails on odd
length ("truncated data" in Python's `utf-16` codec). -/
def utf16Units (le : Bool) : List Nat → Option (List Nat)
  | [] => some []
  | [_] => none
  | a :: b :: rest =>
    (utf16Units le rest).map (fun us => (if le then b * 0x100 + a else a * 0x100 + b) :: us)

/-- Combines 16-bit units into code points, pairing surrogates; fails on
an unpaired surrogate, as Python's `utf-16` codec does. -/
def utf16Combine : List Nat → Option (List Nat)
  | [] => some []
  | u :: rest =>
    if 0xD800 ≤ u ∧ u < 0xDC00 then
      match rest with
      | v :: rest1 =>
        if 0xDC00 ≤ v ∧ v < 0xE000 then
          (utf16Combine rest1).map
            (fun t => (0x10000 + (u - 0xD800) * 0x400 + (v - 0xDC00)) :: t)
        else none
      | [] => none
    else if 0xDC00 ≤ u ∧ u < 0xE000 then none
    else (utf16Combine rest).map (fun t => u :: t)

/-- Python's `utf-16` codec: honours a byte-order mark when present
(stripping it), otherwise assumes the platform's native order, which is
little-endian on the machines this program targets. -/
def utf16Decode (bs : List Nat) : Option (List Nat) :=
  match bs with
  | 0xFF :: 0xFE :: rest => (utf16Units true rest).bind utf16Combine
  | 0xFE :: 0xFF :: rest => (utf16Units false rest).bind utf16Combine
  | _ => (utf16Units true bs).bind utf16Combine

/-- Python's `latin-1` codec: every byte decodes to the code point of the
same value, so decoding never fails. -/
def latin1Decode (bs : List Nat) : Option (List Nat) :=
  some bs

/-- Embeds the decoding loop of `MainWindow.load_file_content`
(src/main.py lines 395-405): try `utf-8`, then `utf-16`, then
`latin-1`, returning the text produced by the first codec that decodes
the bytes without error. -/
def decodeFirst (bs : List Nat) : Option (List Nat) :=
  match utf8Decode bs with
  | some t => some t
  | none =>
    match utf16Decode bs with
    | some t => some t
    | none => latin1Decode bs

/-- Python universal-newline translation performed by `open(path, "r")`:
a carriage return followed by a line feed, and a lone carriage return,
both become a single line feed. -/
def universalNewlines : List Nat → List Nat
  | [] => []
  | 13 :: 10 :: rest => 10 :: universalNewlines rest
  | 13 :: rest => 10 :: universalNewlines rest
  | c :: rest => c :: universalNewlines rest

/-- Document state of the main window: the editor text (as code points),
the associated file path (`current_file_path`) and the dirty flag
(`is_modified`). -/
structure DocState where
  content : List Nat
  filePath : Option String
  dirty : Bool
deriving DecidableEq

/-- Document state at startup: empty buffer, no file, not dirty. -/
def initState : DocState := ⟨[], none, false⟩

/-- Code points of a string literal, for concrete examples. -/
def strCodes (s : String) : List Nat :=
  s.data.map Char.toNat

/-- A file system: a partial map from paths to file bytes.  A path that
maps to `none` does not exist (reads raise). -/
def FileSys : Type := String → Option (List Nat)

/-- Embeds `MainWindow.load_file_content` (src/main.py lines 394-415).
When the path is readable the bytes always decode (Latin-1 fallback) and
the decoded, newline-translated text replaces the buffer, the path is
recorded and the dirty flag cleared.  When reading raises, every codec
attempt fails the same way, the state is untouched and an error dialog
names the path and the cause (modelled as the pair in the second
component). -/
def load_file_content (fs : FileSys) (st : DocState) (path : String) :
    DocState × Option (String × String) :=
  match fs path with
  | none => (st, some (path, "read failed"))
  | some bs =>
    match decodeFirst bs with
    | some t => (⟨universalNewlines t, some path, false⟩, none)
    | none => (st, some (path, "decode failed"))

/-- Embeds `save_file` (src/main.py lines 299-313).  With no associated
path the source falls back to the Save As dialog, which is UI and not
modelled (the state is returned unchanged).  With a path, a successful
write stores the UTF-8 encoding of the buffer (POSIX `os.linesep`, so no
newline translation) and clears the dirty flag; a write fault (injected
as `fault = some cause`) is caught, the state and file system are left
untouched, and the error dialog names the path and the cause. -/
def save_file (fs : FileSys) (st : DocState) (fault : Option String) :
    FileSys × DocState × Option (String × String) :=
  match st.filePath with
  | none => (fs, st, none)
  | some p =>
    match fault with
    | some e => (fs, st, some (p, e))
    | none =>
      (fun q => if q = p then some (utf8Encode st.content) else fs q,
        ⟨st.content, some p, false⟩, none)

/-- Session record written to `session.json`: the JSON object
`\x7b "last_file": string|null, "last_text": string|null \x7d`. -/
structure SessionRecord where
  last_file : Option String
  last_text : Option (List Nat)
deriving DecidableEq

/-- The record built by `MainWindow.save_session` (src/main.py lines
443-446): the current path, and the buffer text only when no path is
associated — with a path the `last_text` field is the empty string. -/
def sessionRecordOf (st : DocState) : SessionRecord :=
  ⟨st.filePath, some (if st.filePath.isNone then st.content else [])⟩

/-- Embeds `MainWindow.save_session` (src/main.py lines 442-451).  The
first component is the record persisted to disk (`none` when the write
faulted); the second is the error surfaced to the caller, which is
always `none` because the bare `except: pass` swallows every failure
and the function returns normally. -/
def save_session (st : DocState) (writeFault : Bool) :
    Option SessionRecord × Option String :=
  if writeFault then (none, none) else (some (sessionRecordOf st), none)

/-- Python truthiness of the optional `last_file` string: `None` and the
empty string are falsy. -/
def pyTruthy (o : Option String) : Bool :=
  match o with
  | none => false
  | some s => !(s = "")

/-- Python's `last_text or ""`: `None` (and the empty string) become the
empty string. -/
def pyOr (o : Option (List Nat)) : List Nat :=
  o.getD []

/-- Embeds `MainWindow.restore_last_session` (src/main.py lines 423-440),
after the session file has been parsed into `rec` (a parse failure
returns before this logic and is not modelled here).  If `last_file` is
truthy and the file exists, the file is loaded; otherwise the buffer is
set to `last_text or ""`, the path cleared, and `is_modified` set to
`False`. -/
def restore_last_session (fs : FileSys) (rec : SessionRecord) (st : DocState) : DocState :=
  match rec.last_file with
  | some p =>
    if !(p = "") ∧ (fs p).isSome then (load_file_content fs st p).1
    else ⟨pyOr rec.last_text, none, false⟩
  | none => ⟨pyOr rec.last_text, none, false⟩

/-! Helper lemmas. -/

theorem on_text_modified_preview (st : WinState) :
    (on_text_modified st).preview_visible = st.preview_visible := by
  cases st with
  | mk m v r => cases m <;> cases v <;> simp [on_text_modified, update_preview]

theorem on_text_modified_renders (st : WinState) :
    (on_text_modified st).renders =
      if st.preview_visible then st.renders + 1 else st.renders := by
  cases st with
  | mk m v r => cases m <;> cases v <;> simp [on_text_modified, update_preview]

theorem interleave_length (r s : List Char) :
    (interleave r s).length = s.length * (r.length + 1) := by
  induction s with
  | nil => simp [interleave]
  | cons c rest ih => simp [interleave, ih]; ring

theorem interleave_nil (s : List Char) : interleave [] s = s := by
  induction s with
  | nil => rfl
  | cons c rest ih => simp [interleave, ih]

theorem pySplit_ne_nil (q s : List Char) : pySplit q s ≠ [] := by
  induction s using pySplit.induct q with
  | case1 => simp [pySplit]
  | case2 c rest h ih => simp [pySplit, h]
  | case3 c rest h ih =>
    rw [pySplit, if_neg h]
    cases hs : pySplit q rest with
    | nil => exact absurd hs ih
    | cons x xs => simp [List.modifyHead]

theorem pyReplaceAux_eq_joinWith (q r s : List Char) :
    pyReplaceAux q r s = joinWith r (pySplit q s) := by
  induction s using pySplit.induct q with
  | case1 => simp [pyReplaceAux, pySplit, joinWith]
  | case2 c rest h ih =>
    rw [pyReplaceAux, if_pos h, pySplit, if_pos h, ih]
    cases hs : pySplit q (List.drop (q.length - 1) rest) with
    | nil => exact absurd hs (pySplit_ne_nil q _)
    | cons x xs => cases xs <;> simp [joinWith]
  | case3 c rest h ih =>
    rw [pyReplaceAux, if_neg h, pySplit, if_neg h, ih]
    cases hs : pySplit q rest with
    | nil => exact absurd hs (pySplit_ne_nil q _)
    | cons x xs => cases xs <;> simp [joinWith, List.modifyHead]

theorem pyReplaceAux_no_occurrence (q r s : List Char)
    (h : containsSub q s = false) : pyReplaceAux q r s = s := by
  induction s with
  | nil => rw [pyReplaceAux]
  | cons c rest ih =>
    rw [containsSub] at h
    rcases Bool.or_eq_false_iff.mp h with ⟨h1, h2⟩
    rw [pyReplaceAux, if_neg (by simp [h1]), ih h2]

theorem replace_all_of_ne_nil (q r s : List Char) (hq : q ≠ []) :
    replace_all q r s = pyReplaceAux q r s := by
  cases q with
  | nil => exact absurd rfl hq
  | cons a as => rfl

theorem occursAtB_of_length_le (q s : List Char) (k : Nat) (hq : q ≠ [])
    (h : s.length ≤ k) : occursAtB q s k = false := by
  unfold occursAtB foldCase
  rw [List.drop_eq_nil_of_le h]
  cases q with
  | nil => exact absurd rfl hq
  | cons a as => rfl

theorem findFrom_sound (q s : List Char) (pos i : Nat)
    (h : findFrom q s pos = some i) :
    pos ≤ i ∧ occursAtB q s i = true ∧
      ∀ k, pos ≤ k → k < i → occursAtB q s k = false := by
  induction pos using findFrom.induct q s with
  | case1 pos hlt =>
    rw [findFrom, if_pos hlt] at h
    cases h
  | case2 pos hlt hocc =>
    rw [findFrom, if_neg hlt, if_pos hocc] at h
    cases h
    exact ⟨le_refl _, hocc, fun k h1 h2 => absurd (lt_of_le_of_lt h1 h2) (lt_irrefl _)⟩
  | case3 pos hlt hocc ih =>
    rw [findFrom, if_neg hlt, if_neg hocc] at h
    obtain ⟨h1, h2, h3⟩ := ih h
    refine ⟨by omega, h2, fun k hk1 hk2 => ?_⟩
    rcases Nat.eq_or_lt_of_le hk1 with hk | hk
    · rw [← hk]
      exact Bool.eq_false_iff.mpr hocc
    · exact h3 k hk hk2

theorem findFrom_none (q s : List Char) (pos : Nat) (hq : q ≠ [])
    (h : findFrom q s pos = none) :
    ∀ k, pos ≤ k → occursAtB q s k = false := by
  induction pos using findFrom.induct q s with
  | case1 pos hlt =>
    exact fun k hk => occursAtB_of_length_le q s k hq (by omega)
  | case2 pos hlt hocc =>
    rw [findFrom, if_neg hlt, if_pos hocc] at h
    cases h
  | case3 pos hlt hocc ih =>
    rw [findFrom, if_neg hlt, if_neg hocc] at h
    intro k hk
    rcases Nat.eq_or_lt_of_le hk with hk2 | hk2
    · rw [← hk2]
      exact Bool.eq_false_iff.mpr hocc
    · exact ih h k hk2

theorem findFrom_found (q s : List Char) (pos i : Nat) (hq : q ≠ [])
    (hpi : pos ≤ i) (hocc : occursAtB q s i = true) :
    ∃ j, findFrom q s pos = some j ∧ j ≤ i := by
  cases hf : findFrom q s pos with
  | none =>
    have := findFrom_none q s pos hq hf i hpi
    rw [hocc] at this
    cases this
  | some j =>
    obtain ⟨h1, h2, h3⟩ := findFrom_sound q s pos j hf
    refine ⟨j, rfl, ?_⟩
    by_contra hij
    have := h3 i hpi (by omega)
    rw [hocc] at this
    cases this

theorem isEmpty_false_of_ne_nil (q : List Char) (hq : q ≠ []) :
    q.isEmpty = false := by
  cases q with
  | nil => exact absurd rfl hq
  | cons a as => rfl

theorem utf8Encode_cons (u : Nat) (t : List Nat) :
    utf8Encode (u :: t) = utf8EncodeChar u ++ utf8Encode t := by
  unfold utf8Encode
  rw [List.map_cons, List.flatten_cons]

theorem utf8EncodeChar_one (u : Nat) (h : u < 0x80) : utf8EncodeChar u = [u] := by
  unfold utf8EncodeChar
  rw [if_pos h]

theorem utf8EncodeChar_two (u : Nat) (h1 : 0x80 ≤ u) (h2 : u < 0x800) :
    utf8EncodeChar u = [0xC0 + u / 0x40, 0x80 + u % 0x40] := by
  unfold utf8EncodeChar
  rw [if_neg (by omega), if_pos h2]

theorem utf8EncodeChar_three (u : Nat) (h1 : 0x800 ≤ u) (h2 : u < 0x10000) :
    utf8EncodeChar u = [0xE0 + u / 0x1000, 0x80 + (u / 0x40) % 0x40, 0x80 + u % 0x40] := by
  unfold utf8EncodeChar
  rw [if_neg (by omega), if_neg (by omega), if_pos h2]

theorem utf8EncodeChar_four (u : Nat) (h1 : 0x10000 ≤ u) :
    utf8EncodeChar u =
      [0xF0 + u / 0x40000, 0x80 + (u / 0x1000) % 0x40, 0x80 + (u / 0x40) % 0x40,
        0x80 + u % 0x40] := by
  unfold utf8EncodeChar
  rw [if_neg (by omega), if_neg (by omega), if_neg (by omega)]

set_option maxHeartbeats 1000000 in
set_option maxRecDepth 4000 in
theorem utf8DecodeOne_append (b : Nat) (rest : List Nat) (u k : Nat)
    (h : utf8DecodeOne b rest = some (u, k)) :
    utf8EncodeChar u ++ List.drop k rest = b :: rest := by
  unfold utf8DecodeOne at h
  repeat' split at h
  all_goals cases h
  all_goals
    first
    | (rw [utf8EncodeChar_one _ (by omega)]; rfl)
    | (rw [utf8EncodeChar_two _ (by omega) (by omega)]
       simp only [List.drop_succ_cons, List.drop_zero, List.cons_append,
         List.nil_append, List.cons.injEq, and_true]
       omega)
    | (rw [utf8EncodeChar_three _ (by omega) (by omega)]
       simp only [List.drop_succ_cons, List.drop_zero, List.cons_append,
         List.nil_append, List.cons.injEq, and_true]
       omega)
    | (rw [utf8EncodeChar_four _ (by omega)]
       simp only [List.drop_succ_cons, List.drop_zero, List.cons_append,
         List.nil_append, List.cons.injEq, and_true]
       omega)

theorem utf8DecodeLoop_encode :
    ∀ (fuel : Nat) (bs t : List Nat), utf8DecodeLoop fuel bs = some t →
      utf8Encode t = bs := by
  intro fuel
  induction fuel with
  | zero =>
    intro bs t h
    cases bs with
    | nil =>
      rw [utf8DecodeLoop] at h
      cases h
      rfl
    | cons b rest =>
      rw [utf8DecodeLoop] at h
      cases h
  | succ fuel ih =>
    intro bs t h
    cases bs with
    | nil =>
      rw [utf8DecodeLoop] at h
      cases h
      rfl
    | cons b rest =>
      rw [utf8DecodeLoop] at h
      split at h
      · cases h
      · next u k heq =>
        rcases Option.map_eq_some'.mp h with ⟨t2, hd, ht⟩
        subst ht
        rw [utf8Encode_cons, ih _ _ hd, utf8DecodeOne_append b rest u k heq]

theorem utf8Decode_encode (bs t : List Nat) (h : utf8Decode bs = some t) :
    utf8Encode t = bs :=
  utf8DecodeLoop_encode bs.length bs t h

theorem utf8Encode_mem13 (t : List Nat) (h : 13 ∈ t) : 13 ∈ utf8Encode t := by
  unfold utf8Encode
  rw [List.mem_flatten]
  exact ⟨utf8EncodeChar 13, List.mem_map_of_mem _ h, by decide⟩

theorem universalNewlines_eq_of_no13 (t : List Nat) (h : ¬ 13 ∈ t) :
    universalNewlines t = t := by
  induction t using universalNewlines.induct with
  | case1 => rfl
  | case2 rest ih => simp at h
  | case3 rest hne ih => simp at h
  | case4 c rest hne hc ih =>
    have h2 : ¬ 13 ∈ rest := fun hm => h (List.mem_cons_of_mem c hm)
    have hc2 : ¬ c = 13 := fun he => hc he
    rw [show universalNewlines (c :: rest) = c :: universalNewlines rest by
      simp [universalNewlines, hc2], ih h2]

/-! Claim C1. -/

/-- Claim C1 counterexample: the claim asserts that while edits keep
arriving faster than the quiet-period interval, zero renders fire.  The
source has no timer at all: `on_text_modified` calls `update_preview`
synchronously, so after a burst of two edit notifications — however
close together in time — two renders have already fired, not zero. -/
theorem C1_debounce_counterexample : (applyEdits initWinState 2).renders ≠ 0 := by
  decide

/-- Claim C1, amended: rendering is not debounced.  Every edit
notification triggers exactly one synchronous render while the preview
pane is visible — a sequence of `n` edit notifications fires `n`
renders, regardless of how fast the edits arrive — and fires none while
the preview pane is hidden. -/
theorem C1_render_per_edit :
    (∀ st n, st.preview_visible = true →
      (applyEdits st n).renders = st.renders + n) ∧
    (∀ st n, st.preview_visible = false →
      (applyEdits st n).renders = st.renders) := by
  constructor
  · intro st n
    induction n generalizing st with
    | zero => intro _; simp [applyEdits]
    | succ n ih =>
      intro h
      rw [applyEdits, ih _ (by rw [on_text_modified_preview]; exact h),
        on_text_modified_renders, if_pos h]
      omega
  · intro st n
    induction n generalizing st with
    | zero => intro _; simp [applyEdits]
    | succ n ih =>
      intro h
      rw [applyEdits, ih _ (by rw [on_text_modified_preview]; exact h),
        on_text_modified_renders, if_neg (by simp [h])]

/-- Claim C1 witness: three rapid edits from the startup state fire
three renders; with the preview hidden they fire none. -/
theorem C1_render_per_edit_witness :
    (applyEdits initWinState 3).renders = initWinState.renders + 3 ∧
    (applyEdits ⟨false, false, 0⟩ 3).renders = (0 : Nat) :=
  ⟨C1_render_per_edit.1 initWinState 3 rfl, C1_render_per_edit.2 ⟨false, false, 0⟩ 3 rfl⟩

/-! Claim C2. -/

/-- Claim C2: for a non-empty query, `replace_all` replaces every
non-overlapping occurrence of the query left-to-right without
re-scanning text produced by earlier replacements — its result is the
segments of the content between left-to-right non-overlapping
occurrences of the query (`pySplit`, which never inspects the
replacement) rejoined with the replacement; on content with no
occurrence of the query the content is unchanged; and
`replaceAll("a","bb")` on `"aaa"` yields `"bbbbbb"`.  The final
conjunct shows a replacement containing the query being emitted without
re-scanning: each original occurrence is replaced exactly once and the
pass terminates. -/
theorem C2_replace_all_spec :
    (∀ q r s, q ≠ [] → replace_all q r s = joinWith r (pySplit q s)) ∧
    (∀ q r s, q ≠ [] → containsSub q s = false → replace_all q r s = s) ∧
    replace_all "a".toList "bb".toList "aaa".toList = "bbbbbb".toList ∧
    replace_all "a".toList "ba".toList "aa".toList = "baba".toList := by
  refine ⟨fun q r s hq => ?_, fun q r s hq h => ?_,
    by simp [replace_all, pyReplace, pyReplaceAux],
    by simp [replace_all, pyReplace, pyReplaceAux]⟩
  · rw [replace_all_of_ne_nil q r s hq, pyReplaceAux_eq_joinWith]
  · rw [replace_all_of_ne_nil q r s hq, pyReplaceAux_no_occurrence q r s h]

/-- Claim C2 witness: the two universally quantified parts applied at
concrete inputs, discharging the hypotheses by evaluation. -/
theorem C2_replace_all_spec_witness :
    replace_all "ab".toList "z".toList "xabyab".toList =
      joinWith "z".toList (pySplit "ab".toList "xabyab".toList) ∧
    replace_all "q".toList "z".toList "abc".toList = "abc".toList :=
  ⟨C2_replace_all_spec.1 "ab".toList "z".toList "xabyab".toList (by decide),
    C2_replace_all_spec.2.1 "q".toList "z".toList "abc".toList (by decide) (by decide)⟩

/-! Claim C3. -/

/-- Claim C3 counterexample: the claim asserts that `replace_all` with an
empty query leaves the content unchanged.  The source passes the query
straight to Python's `str.replace`, which with an empty pattern inserts
the replacement at every character boundary: on content `"abc"` with
replacement `"x"` the result is `"xaxbxcx"`, not `"abc"`. -/
theorem C3_empty_query_counterexample :
    replace_all [] "x".toList "abc".toList ≠ "abc".toList := by
  decide

/-- Claim C3, amended: `replace_all` with an empty query inserts the
replacement at every character boundary (Python `str.replace`
semantics), growing the content to
`r.length + s.length * (r.length + 1)` characters; it leaves the buffer
content unchanged if and only if the replacement is also empty. -/
theorem C3_empty_query_amended :
    ∀ r s : List Char,
      (replace_all [] r s = s ↔ r = []) ∧
      (replace_all [] r s).length = r.length + s.length * (r.length + 1) := by
  have hlen : ∀ r s : List Char,
      (replace_all [] r s).length = r.length + s.length * (r.length + 1) := by
    intro r s
    simp [replace_all, pyReplace, interleave_length]
  intro r s
  refine ⟨⟨fun h => ?_, fun h => ?_⟩, hlen r s⟩
  · have h2 := congrArg List.length h
    rw [hlen r s] at h2
    have h3 : s.length * (r.length + 1) = s.length * r.length + s.length := by ring
    rw [h3] at h2
    have h4 : r.length = 0 := by omega
    exact List.length_eq_zero.mp h4
  · subst h
    simp [replace_all, pyReplace, interleave_nil]

/-! Claim C6. -/

/-- Claim C6: `find_next` with an empty query is an immediate no-op
returning "not found"; with a non-empty query it selects the leftmost
occurrence at or after the cursor offset when one exists; when no
occurrence lies at or after the cursor but one exists earlier, it wraps
unconditionally and selects the leftmost occurrence from offset 0; and
on `"abcabc"` with query `"abc"` the calls from cursor offsets 0, 3 and
6 select `[0,3)`, `[3,6)` and — wrapping — `[0,3)` again.  Occurrence
(`occursAtB`) is case-insensitive, matching `QTextDocument.find` with
its default flags: the last conjunct shows the query `"abc"` on content
`"ABCabc"` selecting the mixed-case match `[0,3)` first. -/
theorem C6_find_next_spec :
    (∀ (s : List Char) (pos : Nat), find_next [] s pos = none) ∧
    (∀ (q s : List Char) (pos i : Nat), q ≠ [] → pos ≤ i →
      occursAtB q s i = true →
      ∃ j, pos ≤ j ∧ j ≤ i ∧ occursAtB q s j = true ∧
        find_next q s pos = some (j, j + q.length) ∧
        ∀ k, pos ≤ k → k < j → occursAtB q s k = false) ∧
    (∀ (q s : List Char) (pos i : Nat), q ≠ [] →
      (∀ k, pos ≤ k → occursAtB q s k = false) →
      occursAtB q s i = true →
      ∃ j, j ≤ i ∧ occursAtB q s j = true ∧
        find_next q s pos = some (j, j + q.length) ∧
        ∀ k, k < j → occursAtB q s k = false) ∧
    (find_next "abc".toList "abcabc".toList 0 = some (0, 3) ∧
      find_next "abc".toList "abcabc".toList 3 = some (3, 6) ∧
      find_next "abc".toList "abcabc".toList 6 = some (0, 3)) ∧
    find_next "abc".toList "ABCabc".toList 0 = some (0, 3) := by
  refine ⟨fun s pos => rfl, ?_, ?_,
    ⟨by simp [find_next, findFrom, occursAtB, foldCase],
      by simp [find_next, findFrom, occursAtB, foldCase],
      by simp [find_next, findFrom, occursAtB, foldCase]⟩,
    by simp [find_next, findFrom, occursAtB, foldCase]⟩
  · intro q s pos i hq hpi hocc
    obtain ⟨j, hfj, hji⟩ := findFrom_found q s pos i hq hpi hocc
    obtain ⟨h1, h2, h3⟩ := findFrom_sound q s pos j hfj
    refine ⟨j, h1, hji, h2, ?_, h3⟩
    rw [find_next, if_neg (by rw [isEmpty_false_of_ne_nil q hq]; exact Bool.false_ne_true),
      hfj]
  · intro q s pos i hq hno hocc
    have hnone : findFrom q s pos = none := by
      cases hf : findFrom q s pos with
      | none => rfl
      | some j =>
        obtain ⟨h1, h2, _⟩ := findFrom_sound q s pos j hf
        rw [hno j h1] at h2
        cases h2
    obtain ⟨j, hfj, hji⟩ := findFrom_found q s 0 i hq (Nat.zero_le i) hocc
    obtain ⟨h1, h2, h3⟩ := findFrom_sound q s 0 j hfj
    refine ⟨j, hji, h2, ?_, fun k hk => h3 k (Nat.zero_le k) hk⟩
    rw [find_next, if_neg (by rw [isEmpty_false_of_ne_nil q hq]; exact Bool.false_ne_true),
      hnone, hfj]

/-- Claim C6 witness: the forward-search part applied on `"xabcabc"` with
query `"abc"`, cursor at 2, and a known occurrence at offset 4; the wrap
part applied on `"abcabc"` with the cursor at 6 (past every occurrence)
and a known occurrence at offset 0. -/
theorem C6_find_next_spec_witness :
    (∃ j, 2 ≤ j ∧ j ≤ 4 ∧ occursAtB "abc".toList "xabcabc".toList j = true ∧
      find_next "abc".toList "xabcabc".toList 2 = some (j, j + 3) ∧
      ∀ k, 2 ≤ k → k < j → occursAtB "abc".toList "xabcabc".toList k = false) ∧
    (∃ j, j ≤ 0 ∧ occursAtB "abc".toList "abcabc".toList j = true ∧
      find_next "abc".toList "abcabc".toList 6 = some (j, j + 3) ∧
      ∀ k, k < j → occursAtB "abc".toList "abcabc".toList k = false) := by
  constructor
  · exact C6_find_next_spec.2.1 "abc".toList "xabcabc".toList 2 4 (by decide)
      (by omega) (by decide)
  · refine C6_find_next_spec.2.2.1 "abc".toList "abcabc".toList 6 0 (by decide)
      (fun k hk => ?_) (by decide)
    have hlen : ("abcabc".toList).length = 6 := by decide
    exact occursAtB_of_length_le _ _ k (by decide) (by omega)

/-! Claim C4. -/

/-- Claim C4 counterexample: restoring the session record
`\x7b"last_file": "/missing/path", "last_text": "hello"\x7d` against a file
system where the path does not exist leaves the buffer containing
`"hello"` as the claim states, but the source then executes
`self.is_modified = False` (src/main.py line 438), so the document is
not marked dirty — refuting the claim's `dirty == true`. -/
theorem C4_restore_counterexample :
    (restore_last_session (fun _ => none)
        ⟨some "/missing/path", some (strCodes "hello")⟩ initState).content
      = strCodes "hello" ∧
    ¬ (restore_last_session (fun _ => none)
        ⟨some "/missing/path", some (strCodes "hello")⟩ initState).dirty = true := by
  constructor
  · decide
  · decide

/-- Claim C4, amended: if the session record's `last_file` is absent,
empty, or names a file that no longer exists, the buffer is loaded with
the record's `last_text` (empty when that is null) and the document is
marked not dirty (`dirty == false`, the file association cleared); if
`last_file` names an existing file, the buffer's content equals that
file's decoded on-disk content and `dirty == false`. -/
theorem C4_restore_amended :
    (∀ (fs : FileSys) (rec : SessionRecord) (st : DocState),
      rec.last_file = none →
      restore_last_session fs rec st = ⟨pyOr rec.last_text, none, false⟩) ∧
    (∀ (fs : FileSys) (rec : SessionRecord) (st : DocState) (p : String),
      rec.last_file = some p → (p = "" ∨ fs p = none) →
      restore_last_session fs rec st = ⟨pyOr rec.last_text, none, false⟩) ∧
    (∀ (fs : FileSys) (rec : SessionRecord) (st : DocState) (p : String)
        (bs t : List Nat),
      rec.last_file = some p → p ≠ "" → fs p = some bs → decodeFirst bs = some t →
      restore_last_session fs rec st = ⟨universalNewlines t, some p, false⟩) := by
  refine ⟨?_, ?_, ?_⟩
  · intro fs rec st h
    obtain ⟨lf, lt⟩ := rec
    cases h
    rfl
  · intro fs rec st p h h2
    obtain ⟨lf, lt⟩ := rec
    cases h
    rcases h2 with h2 | h2
    · subst h2
      simp [restore_last_session]
    · simp [restore_last_session, h2]
  · intro fs rec st p bs t h hp hfs hdec
    obtain ⟨lf, lt⟩ := rec
    cases h
    simp [restore_last_session, hp, hfs, load_file_content, hdec]

/-- Claim C4 witness: the three amended cases at concrete inputs — no
recorded path, a recorded path that does not exist, and a recorded path
whose file exists with bytes `[104, 105]` (`"hi"`). -/
theorem C4_restore_amended_witness :
    restore_last_session (fun _ => none) ⟨none, some (strCodes "hi")⟩ initState
      = ⟨strCodes "hi", none, false⟩ ∧
    restore_last_session (fun _ => none)
        ⟨some "/gone/file.md", some (strCodes "hello")⟩ initState
      = ⟨strCodes "hello", none, false⟩ ∧
    restore_last_session (fun p => if p = "/tmp/a.md" then some [104, 105] else none)
        ⟨some "/tmp/a.md", some []⟩ initState
      = ⟨universalNewlines [104, 105], some "/tmp/a.md", false⟩ :=
  ⟨C4_restore_amended.1 (fun _ => none) ⟨none, some (strCodes "hi")⟩ initState rfl,
    C4_restore_amended.2.1 (fun _ => none)
      ⟨some "/gone/file.md", some (strCodes "hello")⟩ initState "/gone/file.md" rfl
      (Or.inr rfl),
    C4_restore_amended.2.2 (fun p => if p = "/tmp/a.md" then some [104, 105] else none)
      ⟨some "/tmp/a.md", some []⟩ initState "/tmp/a.md" [104, 105] [104, 105] rfl
      (by decide) (by decide) (by decide)⟩

/-! Claim C7. -/

/-- Claim C7: when a save fails with an I/O fault, the error path leaves
the in-memory state unchanged — the returned triple is exactly the
original file system, the original document state (dirty flag and buffer
content untouched) and an error message naming the path and the cause;
the exception is caught so the process never crashes (the embedding is a
total function).  When the save succeeds, the dirty flag becomes false,
the content is untouched and no error is reported. -/
theorem C7_save_error_preserves_state :
    ∀ (fs : FileSys) (st : DocState) (p e : String),
      st.filePath = some p →
      save_file fs st (some e) = (fs, st, some (p, e)) ∧
      (save_file fs st none).2.1 = ⟨st.content, some p, false⟩ ∧
      (save_file fs st none).2.2 = none := by
  intro fs st p e h
  obtain ⟨c, fp, d⟩ := st
  cases h
  exact ⟨rfl, rfl, rfl⟩

/-- Claim C7 witness: a dirty document associated with `/tmp/f.md` whose
save faults with "disk full" is returned unchanged (still dirty) with an
error naming the path and cause; the same save without a fault clears
the dirty flag. -/
theorem C7_save_error_witness :
    save_file (fun _ => none) ⟨strCodes "x", some "/tmp/f.md", true⟩ (some "disk full")
      = ((fun _ => none), ⟨strCodes "x", some "/tmp/f.md", true⟩,
          some ("/tmp/f.md", "disk full")) ∧
    (save_file (fun _ => none) ⟨strCodes "x", some "/tmp/f.md", true⟩ none).2.1
      = ⟨strCodes "x", some "/tmp/f.md", false⟩ ∧
    (save_file (fun _ => none) ⟨strCodes "x", some "/tmp/f.md", true⟩ none).2.2 = none :=
  C7_save_error_preserves_state (fun _ => none)
    ⟨strCodes "x", some "/tmp/f.md", true⟩ "/tmp/f.md" "disk full" rfl

/-! Claim C9. -/

/-- Claim C9: the session record captures only the file path (the
`last_text` field is the empty string, not the document text) when a
file is associated, and the raw unsaved text when no file is associated;
and for every document state and every write fault the session save
surfaces no error — the bare `except: pass` swallows the failure and the
function (total in this embedding) returns normally. -/
theorem C9_save_session_spec :
    ∀ (st : DocState) (fault : Bool),
      (save_session st fault).2 = none ∧
      (save_session st false).1 = some (sessionRecordOf st) ∧
      (sessionRecordOf st).last_file = st.filePath ∧
      (sessionRecordOf st).last_text =
        some (if st.filePath.isNone then st.content else []) := by
  intro st fault
  refine ⟨?_, rfl, rfl, rfl⟩
  cases fault <;> rfl

/-! Claim C10. -/

/-- Claim C10: whenever a session is saved with an associated file path,
the record's `last_text` field is the empty string (not the document
text and not null); if that file does not exist at the next startup,
session restore fills the buffer with the empty string — the pre-save
document content is not recoverable from the record. -/
theorem C10_session_text_empty :
    ∀ (st : DocState) (p : String) (fs : FileSys),
      st.filePath = some p → fs p = none →
      (sessionRecordOf st).last_text = some [] ∧
      restore_last_session fs (sessionRecordOf st) initState = ⟨[], none, false⟩ := by
  intro st p fs h hfs
  obtain ⟨c, fp, d⟩ := st
  cases h
  refine ⟨rfl, ?_⟩
  simp [sessionRecordOf, restore_last_session, hfs, pyOr]

/-- Claim C10 witness: a document with text `"draft"` saved while
associated with `/tmp/doc.md`, restored after the file vanished, yields
an empty buffer. -/
theorem C10_session_text_empty_witness :
    (sessionRecordOf ⟨strCodes "draft", some "/tmp/doc.md", true⟩).last_text = some [] ∧
    restore_last_session (fun _ => none)
        (sessionRecordOf ⟨strCodes "draft", some "/tmp/doc.md", true⟩) initState
      = ⟨[], none, false⟩ :=
  C10_session_text_empty ⟨strCodes "draft", some "/tmp/doc.md", true⟩ "/tmp/doc.md"
    (fun _ => none) rfl rfl

/-! Claim C5. -/

/-- Claim C5: decoding tries UTF-8, then UTF-16, then Latin-1, returning
the text of the first codec that decodes without error; because Latin-1
decodes every byte sequence, decoding itself never fails — in
particular the single byte `0xFF` (invalid UTF-8, truncated UTF-16)
decodes, via Latin-1, to the code point `0xFF` — and
`load_file_content` reports an error naming the path exactly when the
read itself fails at the I/O level. -/
theorem C5_encoding_fallback :
    (∀ bs t, utf8Decode bs = some t → decodeFirst bs = some t) ∧
    (∀ bs t, utf8Decode bs = none → utf16Decode bs = some t →
      decodeFirst bs = some t) ∧
    (∀ bs, utf8Decode bs = none → utf16Decode bs = none →
      decodeFirst bs = latin1Decode bs) ∧
    (∀ bs, (decodeFirst bs).isSome = true) ∧
    decodeFirst [255] = some [255] ∧
    (∀ (fs : FileSys) (st : DocState) (p : String),
      (load_file_content fs st p).2 ≠ none ↔ fs p = none) := by
  have hsome : ∀ bs, (decodeFirst bs).isSome = true := by
    intro bs
    unfold decodeFirst
    cases utf8Decode bs with
    | some t => rfl
    | none =>
      cases utf16Decode bs with
      | some t => rfl
      | none => rfl
  refine ⟨?_, ?_, ?_, hsome, by decide, ?_⟩
  · intro bs t h
    unfold decodeFirst
    rw [h]
  · intro bs t h1 h2
    unfold decodeFirst
    rw [h1, h2]
  · intro bs h1 h2
    unfold decodeFirst
    rw [h1, h2]
  · intro fs st p
    cases hfs : fs p with
    | none => simp [load_file_content, hfs]
    | some bs =>
      have := hsome bs
      cases hdec : decodeFirst bs with
      | none => rw [hdec] at this; cases this
      | some t => simp [load_file_content, hfs, hdec, hfs]

/-- Claim C5 witness: the byte `[104]` is valid UTF-8 and wins the
priority order; `[255, 254]` fails UTF-8 but decodes as UTF-16 (a bare
little-endian byte-order mark, empty text); `[255]` fails both and falls
back to Latin-1; and reading a missing path reports an error. -/
theorem C5_encoding_fallback_witness :
    decodeFirst [104] = some [104] ∧
    decodeFirst [255, 254] = some [] ∧
    decodeFirst [255] = latin1Decode [255] ∧
    ((load_file_content (fun _ => none) initState "/nope.md").2 ≠ none ↔
      (fun (_ : String) => (none : Option (List Nat))) "/nope.md" = none) :=
  ⟨C5_encoding_fallback.1 [104] [104] (by decide),
    C5_encoding_fallback.2.1 [255, 254] [] (by decide) (by decide),
    C5_encoding_fallback.2.2.1 [255] (by decide) (by decide),
    C5_encoding_fallback.2.2.2.2.2 (fun _ => none) initState "/nope.md"⟩

/-! Claim C8. -/

/-- Claim C8 counterexample: the file bytes `[97, 13, 10, 98]`
(`"a\r\nb"`) are valid UTF-8, yet loading and saving them back yields
`[97, 10, 98]` (`"a\nb"`), not the original bytes.  Python's
text-mode read performs universal-newline translation, collapsing the
carriage-return / line-feed pair to a single line feed, and the UTF-8
write does not restore it, so the round trip is not byte-identical for
every UTF-8 file. -/
theorem C8_roundtrip_counterexample :
    ((save_file (fun _ => some [97, 13, 10, 98])
        (load_file_content (fun _ => some [97, 13, 10, 98]) initState "/f.md").1
        none).1) "/f.md" = some [97, 10, 98] ∧
    [97, 10, 98] ≠ [97, 13, 10, 98] := by
  constructor
  · decide
  · decide

/-- Claim C8, amended: for every UTF-8 encoded file that contains no
carriage-return byte (`0x0D`), loading it and saving to the same path
round-trips the on-disk bytes identically; a file containing
carriage returns has them normalized to line feeds by the
universal-newline read, so only such files fail the byte-identical
round trip. -/
theorem C8_roundtrip_amended :
    ∀ (fs : FileSys) (st : DocState) (p : String) (bs t : List Nat),
      fs p = some bs → utf8Decode bs = some t → ¬ 13 ∈ bs →
      ((save_file fs (load_file_content fs st p).1 none).1) p = some bs := by
  intro fs st p bs t hfs hdec h13
  have hfirst : decodeFirst bs = some t := by
    unfold decodeFirst
    rw [hdec]
  have hload : (load_file_content fs st p).1 = ⟨universalNewlines t, some p, false⟩ := by
    simp [load_file_content, hfs, hfirst]
  have h13t : ¬ 13 ∈ t := fun ht =>
    h13 (by rw [← utf8Decode_encode bs t hdec]; exact utf8Encode_mem13 t ht)
  rw [hload]
  show (fun q => if q = p then some (utf8Encode (universalNewlines t)) else fs q) p
      = some bs
  simp only [universalNewlines_eq_of_no13 t h13t, utf8Decode_encode bs t hdec]
  simp

/-- Claim C8 witness: the two-byte UTF-8 file `[104, 105]` (`"hi"`)
round-trips byte-identically through load and save. -/
theorem C8_roundtrip_amended_witness :
    ((save_file (fun _ => some [104, 105])
        (load_file_content (fun _ => some [104, 105]) initState "/a.md").1
        none).1) "/a.md" = some [104, 105] :=
  C8_roundtrip_amended (fun _ => some [104, 105]) initState "/a.md" [104, 105]
    [104, 105] rfl (by decide) (by decide)

end MarkdownViewer
